import Mathlib

/-!
Verification of the TrueType font parser (`TTFParser` in the repository's
`core` package) against its natural-language specification.

The Go parser reads a font file through a mutable `*os.File` cursor and
mutates the fields of `TTFParser` as it goes.  The shallow embedding below
models the file as a list of byte values (`List Nat`), the cursor as an
explicit position (`Nat`), and the parser object as an explicit record
(`TTFState`) threaded through each sub-parser.  A Go method that may fail
returns a `PResult`: either an error together with the (possibly already
mutated) state, or the final state and cursor position, mirroring the fact
that Go field assignments made before an error return survive it.

Machine integers: every Go value here is `uint64` or `int64`.  Sizes and
indices are modelled as `Nat` with explicit wraparound (`u64sub`) at the
two places where the source can underflow a `uint64` subtraction; signed
16-bit reads are modelled as `Int` with the source's explicit `u - 65536`
correction.
-/

namespace TTF

/-- Errors of the parser.  Each constructor corresponds to one failure mode
of the source: the `errors.New`/`var ERROR_...` values, plus
`indexOutOfRange`, which models a Go runtime panic from a slice index out
of range (a crash, not a returned `error` value). -/
inductive TTFError where
  /-- The error of `Seek` when a tag is absent from the table directory
  (source: `errors.New ("me.tables not contain key=" + tag)`). -/
  | tableNotFound (tag : String)
  /-- The error of `Read` when fewer bytes than requested are available
  (source: `errors.New ("file out of length")`, and the I/O error of a read
  at end of file). -/
  | fileOutOfLength
  /-- Source: `ERROR_INCORRECT_MAGIC_NUMBER`. -/
  | incorrectMagicNumber
  /-- Source: `ERROR_NO_UNICODE_ENCODING_FOUND`. -/
  | noUnicodeEncodingFound
  /-- Source: `ERROR_UNEXPECTED_SUBTABLE_FORMAT`. -/
  | unexpectedSubtableFormat
  /-- Source: `ERROR_POSTSCRIPT_NAME_NOT_FOUND`. -/
  | postScriptNameNotFound
  /-- Not a Go `error` value: a runtime panic caused by indexing a slice
  out of bounds.  Kept separate so that a crash is never mistaken for a
  typed error. -/
  | indexOutOfRange
  deriving DecidableEq, Repr

/-- One entry of the table directory (source: `TableDirectoryEntry` with
fields `Offset`, `CheckSum`, `Length`). -/
structure TableDirectoryEntry where
  offset : Nat
  length : Nat
  checkSum : Nat
  deriving DecidableEq, Repr

/-- The fields of the Go `TTFParser` struct touched by the embedded
sub-parsers.  `chars` models the Go map `map[int]uint64` as the sequence of
insertions performed on it (`me.chars[int(c)] = gid`), in order; a later
insertion for the same key overwrites the earlier one. -/
structure TTFState where
  unitsPerEm : Nat
  xMin : Int
  yMin : Int
  xMax : Int
  yMax : Int
  indexToLocFormat : Int
  numberOfHMetrics : Nat
  ascender : Int
  descender : Int
  numGlyphs : Nat
  widths : List Nat
  chars : List (Nat × Nat)
  typoAscender : Int
  typoDescender : Int
  usWinAscent : Nat
  usWinDescent : Nat
  SegCount : Nat
  StartCount : List Nat
  EndCount : List Nat
  IdRangeOffset : List Nat
  IdDelta : List Nat
  GlyphIdArray : List Nat
  symbol : Bool
  deriving DecidableEq, Repr

/-- The zero value of the Go struct: a freshly allocated `TTFParser`. -/
def initState : TTFState where
  unitsPerEm := 0
  xMin := 0
  yMin := 0
  xMax := 0
  yMax := 0
  indexToLocFormat := 0
  numberOfHMetrics := 0
  ascender := 0
  descender := 0
  numGlyphs := 0
  widths := []
  chars := []
  typoAscender := 0
  typoDescender := 0
  usWinAscent := 0
  usWinDescent := 0
  SegCount := 0
  StartCount := []
  EndCount := []
  IdRangeOffset := []
  IdDelta := []
  GlyphIdArray := []
  symbol := false

/-- Result of one sub-parser call: an error together with the state as
mutated so far, or the final state and cursor position. -/
inductive PResult where
  | err (e : TTFError) (st : TTFState)
  | ok (st : TTFState) (pos : Nat)
  deriving DecidableEq, Repr

/-- The table directory `me.tables`, keyed by tag text. -/
abbrev Tables := List (String × TableDirectoryEntry)

/-- Source `Read`: read exactly `n` bytes at `pos`; `none` models the
"file out of length" error when fewer are available. -/
def ReadBytesAt (file : List Nat) (pos n : Nat) : Option (List Nat) :=
  if pos + n ≤ file.length then some ((file.drop pos).take n) else none

/-- Source `big.NewInt(0).SetBytes(buff)`: bytes interpreted as a
big-endian unsigned number. -/
def BytesToNum (bs : List Nat) : Nat :=
  bs.foldl (fun a b => a * 256 + b) 0

/-- Source `ReadUShort`: two bytes, big-endian. -/
def ReadUShortAt (file : List Nat) (pos : Nat) : Option Nat :=
  (ReadBytesAt file pos 2).map BytesToNum

/-- Source `ReadULong`: four bytes, big-endian. -/
def ReadULongAt (file : List Nat) (pos : Nat) : Option Nat :=
  (ReadBytesAt file pos 4).map BytesToNum

/-- Source `ReadShort`: two bytes big-endian, then the explicit
two's-complement correction `if u >= 0x8000 then int64 u - 65536`. -/
def ReadShortAt (file : List Nat) (pos : Nat) : Option Int :=
  (ReadUShortAt file pos).map fun u =>
    if u ≥ 0x8000 then (u : Int) - 65536 else (u : Int)

/-- The modulus of Go's `uint64` arithmetic. -/
def U64 : Nat := 18446744073709551616

/-- Go `uint64` subtraction `a - b` with wraparound, for the two places
where the source can underflow it. -/
def u64sub (a b : Nat) : Nat :=
  (a + (U64 - b % U64)) % U64

/-- Source: `var Symbolic = 1 << 2`. -/
def Symbolic : Nat := 1 <<< 2

/-- Source: `var Nonsymbolic = (1 << 5)`. -/
def Nonsymbolic : Nat := 1 <<< 5

/-- Source `Flag`: `flag := 0`, then `flag |= Symbolic` when the symbol
flag is set, else `flag |= Nonsymbolic`. -/
def Flag (st : TTFState) : Nat :=
  let flag := 0
  if st.symbol then flag ||| Symbolic else flag ||| Nonsymbolic

/-- Source `Descender`: return the hhea descender when `typoDescender` is
zero; otherwise start from `int64 usWinDescent` and multiply it by `-1`
when the hhea descender is negative. -/
def Descender (st : TTFState) : Int :=
  if st.typoDescender = 0 then st.descender
  else
    let descender := (st.usWinDescent : Int)
    let descender := if st.descender < 0 then descender * (-1) else descender
    descender

/-- Source `Ascender`: the hhea ascender when `typoAscender` is zero, else
`int64 usWinAscent`. -/
def Ascender (st : TTFState) : Int :=
  if st.typoAscender = 0 then st.ascender else (st.usWinAscent : Int)

/-- Source `PregReplace` as called by `ParseName` (line 586): the Go
pattern keeps the PHP pattern delimiters, so it is an alternation whose
first and last branches are empty (vertical bar, the character class of
space and the bracket/percent characters, vertical bar).  Go's regexp
engine uses leftmost-first matching: at every position the empty first
branch wins, the match is always the empty string, and `ReplaceAllString`
of empty matches with the empty string removes nothing.  The call is the
identity on its subject; no character of the class is ever stripped. -/
def PregReplaceForbidden (s : List Nat) : List Nat := s

/-- The payload transformation of `ParseName` for a `nameID == 6` record
(source lines 578-590): drop every zero byte (`if v != 0`), then
`strings.Replace (s, strconv.Itoa 0, "", -1)` - `strconv.Itoa 0` is the
one-byte string "0", so this drops every byte 48, the digit zero - then
the `PregReplace` call, which removes nothing (see
`PregReplaceForbidden`). -/
def sanitizePostScriptName (stmp : List Nat) : List Nat :=
  let tmpStmp := stmp.filter fun v => v ≠ 0
  let s := tmpStmp.filter fun v => v ≠ 48
  PregReplaceForbidden s

/-- The reading loop of `ParseHmtx`: `numberOfHMetrics` times, read an
advance width (2 bytes), skip the side bearing (2 bytes), append the width
to `me.widths`.  On a failed read the widths appended so far survive, as
the Go field mutation does. -/
def hmtxReadLoop (file : List Nat) : Nat → Nat → List Nat →
    Option TTFError × List Nat × Nat
  | 0, pos, ws => (none, ws, pos)
  | n + 1, pos, ws =>
    match ReadUShortAt file pos with
    | none => (some .fileOutOfLength, ws, pos)
    | some advanceWidth => hmtxReadLoop file n (pos + 2 + 2) (ws ++ [advanceWidth])

/-- Source `ArrayPadUint`: build a list of exactly `size` entries, taking
`arr i` while `i < len arr` and `val` beyond (the Go error return is
always `nil`). -/
def ArrayPadUint (arr : List Nat) (size : Nat) (val : Nat) : List Nat :=
  (List.range size).map fun i => if i < arr.length then arr.getD i 0 else val

/-- Source `ParseHmtx`.  Note that the source discards the error of
`me.Seek (fd, "hmtx")`: when the tag is absent the cursor stays where it
was and parsing continues there.  The last-width access
`me.widths[me.numberOfHMetrics-1]` uses `uint64` index arithmetic; an
out-of-range index is a runtime panic, modelled as `.err .indexOutOfRange`. -/
def ParseHmtx (tables : Tables) (file : List Nat) (st : TTFState) (pos0 : Nat) :
    PResult :=
  let pos := match tables.lookup "hmtx" with
    | some t => t.offset
    | none => pos0
  match hmtxReadLoop file st.numberOfHMetrics pos st.widths with
  | (some e, ws, _) => .err e { st with widths := ws }
  | (none, ws, pos) =>
    let st := { st with widths := ws }
    if st.numberOfHMetrics < st.numGlyphs then
      match ws.get? (u64sub st.numberOfHMetrics 1) with
      | none => .err .indexOutOfRange st
      | some lastWidth =>
        .ok { st with widths := ArrayPadUint ws st.numGlyphs lastWidth } pos
    else .ok st pos

/-- Source `ParseHead`.  The `Seek` error is checked here (unlike in
`ParseHmtx`/`ParseCmap`).  Each `me.field, err = me.Read...` assigns the
zero value to the field when the read fails, before returning the error. -/
def ParseHead (tables : Tables) (file : List Nat) (st : TTFState) (_pos0 : Nat) :
    PResult :=
  match tables.lookup "head" with
  | none => .err (.tableNotFound "head") st
  | some t =>
    let pos := t.offset
    let pos := pos + 12
    match ReadULongAt file pos with
    | none => .err .fileOutOfLength st
    | some magicNumber =>
      let pos := pos + 4
      if magicNumber ≠ 0x5F0F3CF5 then .err .incorrectMagicNumber st
      else
        let pos := pos + 2
        match ReadUShortAt file pos with
        | none => .err .fileOutOfLength { st with unitsPerEm := 0 }
        | some unitsPerEm =>
          let st := { st with unitsPerEm := unitsPerEm }
          let pos := pos + 2
          let pos := pos + 16
          match ReadShortAt file pos with
          | none => .err .fileOutOfLength { st with xMin := 0 }
          | some xMin =>
            let st := { st with xMin := xMin }
            let pos := pos + 2
            match ReadShortAt file pos with
            | none => .err .fileOutOfLength { st with yMin := 0 }
            | some yMin =>
              let st := { st with yMin := yMin }
              let pos := pos + 2
              match ReadShortAt file pos with
              | none => .err .fileOutOfLength { st with xMax := 0 }
              | some xMax =>
                let st := { st with xMax := xMax }
                let pos := pos + 2
                match ReadShortAt file pos with
                | none => .err .fileOutOfLength { st with yMax := 0 }
                | some yMax =>
                  let st := { st with yMax := yMax }
                  let pos := pos + 2
                  let pos := pos + 6
                  match ReadShortAt file pos with
                  | none => .err .fileOutOfLength { st with indexToLocFormat := 0 }
                  | some indexToLocFormat =>
                    .ok { st with indexToLocFormat := indexToLocFormat } (pos + 2)

/-- The subtable-record scan of `ParseCmap` (source lines 622-644): for
each record read platformID, encodingID and offset, set `me.symbol` to
false, and under `platformID == 3 && encodingID == 1` set it to true only
under the nested `encodingID == 0` check, recording the offset.  The
carried `symbol` and `offset31` are returned also on a failed read, as the
field mutations of earlier iterations survive a Go error return. -/
def cmapScanLoop (file : List Nat) : Nat → Nat → Bool → Nat →
    Option TTFError × Bool × Nat × Nat
  | 0, pos, symbol, offset31 => (none, symbol, offset31, pos)
  | n + 1, pos, symbol, offset31 =>
    match ReadUShortAt file pos with
    | none => (some .fileOutOfLength, symbol, offset31, pos)
    | some platformID =>
      match ReadUShortAt file (pos + 2) with
      | none => (some .fileOutOfLength, symbol, offset31, pos + 2)
      | some encodingID =>
        match ReadULongAt file (pos + 4) with
        | none => (some .fileOutOfLength, symbol, offset31, pos + 4)
        | some offset =>
          let symbol := false
          let p : Bool × Nat :=
            if platformID = 3 ∧ encodingID = 1 then
              (if encodingID = 0 then true else symbol, offset)
            else (symbol, offset31)
          cmapScanLoop file n (pos + 8) p.1 p.2

/-- A loop of `n` `ReadUShort` calls collecting the values read, used for
the `endCount`, `startCount`, `idDelta`, `idRangeOffset` and
`glyphIdArray` arrays of `ParseCmap`; `none` when any read fails. -/
def ReadUShortList (file : List Nat) : Nat → Nat → Option (List Nat × Nat)
  | 0, pos => some ([], pos)
  | n + 1, pos =>
    match ReadUShortAt file pos with
    | none => none
    | some v =>
      match ReadUShortList file n (pos + 2) with
      | none => none
      | some (vs, p) => some (v :: vs, p)

/-- The glyph-index reduction of `ParseCmap` (source lines 776-778):
`if gid >= 65536 { gid -= 65536 }` - a single conditional subtraction. -/
def reduceGid (gid : Nat) : Nat :=
  if gid ≥ 65536 then gid - 65536 else gid

/-- The guarded map insertion of `ParseCmap` (source lines 779-782):
`if gid > 0 { me.chars[int(c)] = gid }`. -/
def storeChar (acc : List (Nat × Nat)) (c gid : Nat) : List (Nat × Nat) :=
  if gid > 0 then acc ++ [(c, gid)] else acc

/-- The inner codepoint loop of `ParseCmap` over one segment (source lines
759-783): `for c := c1; c <= c2; c++`, called with `fuel = c2 + 1 - c1`.
Each step: break without storing at `c == 0xFFFF`; when `ro > 0` read the
glyph id from the file at the cursor and add `d` to it when nonzero, else
take `c + d`; reduce; store `(c, gid)` only when `gid > 0`. -/
def segLoop (file : List Nat) (d ro : Nat) : Nat → Nat → Nat → List (Nat × Nat) →
    Option TTFError × List (Nat × Nat) × Nat
  | 0, pos, _, acc => (none, acc, pos)
  | fuel + 1, pos, c, acc =>
    if c = 0xFFFF then (none, acc, pos)
    else if ro > 0 then
      match ReadUShortAt file pos with
      | none => (some .fileOutOfLength, acc, pos)
      | some g =>
        let gid := if g > 0 then g + d else g
        let gid := reduceGid gid
        segLoop file d ro fuel (pos + 2) (c + 1) (storeChar acc c gid)
    else
      let gid := c + d
      let gid := reduceGid gid
      segLoop file d ro fuel pos (c + 1) (storeChar acc c gid)

/-- The segment loop of `ParseCmap` (source lines 747-785): for each
segment `i`, look up `c1`, `c2`, `d` and `ro` in the parallel arrays, seek
to `offset + 2*i + ro` when `ro > 0`, and run the codepoint loop. -/
def buildCharsLoop (file : List Nat) (startCount endCount idDelta idRangeOffset :
    List Nat) (offset : Nat) : Nat → Nat → Nat → List (Nat × Nat) →
    Option TTFError × List (Nat × Nat) × Nat
  | 0, _, pos, acc => (none, acc, pos)
  | segs + 1, i, pos, acc =>
    let c1 := startCount.getD i 0
    let c2 := endCount.getD i 0
    let d := idDelta.getD i 0
    let ro := idRangeOffset.getD i 0
    let pos := if ro > 0 then offset + 2 * i + ro else pos
    match segLoop file d ro (c2 + 1 - c1) pos c1 acc with
    | (some e, acc, pos) => (some e, acc, pos)
    | (none, acc, pos) =>
      buildCharsLoop file startCount endCount idDelta idRangeOffset offset
        segs (i + 1) pos acc

/-- Source `ParseCmap`.  The error of `me.Seek (fd, "cmap")` is discarded
by the source: when the tag is absent the cursor stays at `pos0` and the
parser reads whatever lies there.  `me.tables["cmap"].Offset` on a missing
key is the Go zero value 0.  `glyphCount` is computed with `uint64`
subtraction, which can wrap. -/
def ParseCmap (tables : Tables) (file : List Nat) (st : TTFState) (pos0 : Nat) :
    PResult :=
  let pos := match tables.lookup "cmap" with
    | some t => t.offset
    | none => pos0
  let pos := pos + 2
  match ReadUShortAt file pos with
  | none => .err .fileOutOfLength st
  | some numTables =>
    let pos := pos + 2
    match cmapScanLoop file numTables pos st.symbol 0 with
    | (some e, symbol, _, _) => .err e { st with symbol := symbol }
    | (none, symbol, offset31, _) =>
      let st := { st with symbol := symbol }
      if offset31 = 0 then .err .noUnicodeEncodingFound st
      else
        let cmapOffset := match tables.lookup "cmap" with
          | some t => t.offset
          | none => 0
        let pos := cmapOffset + offset31
        match ReadUShortAt file pos with
        | none => .err .fileOutOfLength st
        | some format =>
          let pos := pos + 2
          if format ≠ 4 then .err .unexpectedSubtableFormat st
          else
            match ReadUShortAt file pos with
            | none => .err .fileOutOfLength st
            | some length =>
              let pos := pos + 2
              let pos := pos + 2
              match ReadUShortAt file pos with
              | none => .err .fileOutOfLength st
              | some segCountX2 =>
                let pos := pos + 2
                let segCount := segCountX2 / 2
                let st := { st with SegCount := segCount }
                let pos := pos + 6
                let glyphCount := u64sub length (16 + 8 * segCount) / 2
                match ReadUShortList file segCount pos with
                | none => .err .fileOutOfLength st
                | some (endCount, pos) =>
                  let st := { st with EndCount := endCount }
                  let pos := pos + 2
                  match ReadUShortList file segCount pos with
                  | none => .err .fileOutOfLength st
                  | some (startCount, pos) =>
                    let st := { st with StartCount := startCount }
                    match ReadUShortList file segCount pos with
                    | none => .err .fileOutOfLength st
                    | some (idDelta, pos) =>
                      let st := { st with IdDelta := idDelta }
                      let offset := pos
                      match ReadUShortList file segCount pos with
                      | none => .err .fileOutOfLength st
                      | some (idRangeOffset, pos) =>
                        let st := { st with IdRangeOffset := idRangeOffset }
                        match ReadUShortList file glyphCount pos with
                        | none => .err .fileOutOfLength st
                        | some (glyphIdArray, pos) =>
                          let st := { st with GlyphIdArray := glyphIdArray }
                          let st := { st with chars := [] }
                          match buildCharsLoop file startCount endCount idDelta
                              idRangeOffset offset segCount 0 pos [] with
                          | (some e, acc, _) => .err e { st with chars := acc }
                          | (none, acc, pos) => .ok { st with chars := acc } pos

/-! Helper lemmas about the loops of the parsers. -/

/-- Go `uint64` subtraction by one agrees with truncated subtraction for
nonzero values below the modulus. -/
theorem u64sub_one (n : Nat) (h1 : 1 ≤ n) (hb : n < U64) :
    u64sub n 1 = n - 1 := by
  simp only [u64sub, U64] at hb ⊢
  omega

/-- A successful lookup makes `getD` return the looked-up value. -/
theorem getD_of_getQ {l : List Nat} {i v : Nat} (h : l.get? i = some v) :
    l.getD i 0 = v := by
  obtain ⟨hlt, hv⟩ := List.get?_eq_some.1 h
  rw [List.getD_eq_getElem l 0 hlt, ← hv]
  simp

/-- The padded array has exactly `size` entries. -/
theorem ArrayPadUint_length (arr : List Nat) (size val : Nat) :
    (ArrayPadUint arr size val).length = size := by
  simp [ArrayPadUint]

/-- Entry `i` of the padded array: the original entry while `i` is in
range of `arr`, the padding value up to `size`, nothing beyond. -/
theorem ArrayPadUint_getQ (arr : List Nat) (size val i : Nat) :
    (ArrayPadUint arr size val).get? i =
      if i < size then some (if i < arr.length then arr.getD i 0 else val)
      else none := by
  unfold ArrayPadUint
  rcases Nat.lt_or_ge i size with h | h
  · rw [List.get?_map, List.get?_range h, if_pos h]
    rfl
  · rw [if_neg (Nat.not_lt.2 h)]
    exact List.get?_len_le (by simpa using h)

/-- A successful hmtx reading loop extends the width list by exactly the
iteration count, entry `i` of the new part is the 2-byte value read at
`pos + 4 * i`, and the old part is untouched. -/
theorem hmtxReadLoop_ok (file : List Nat) :
    ∀ (n pos : Nat) (ws ws' : List Nat) (p : Nat),
    hmtxReadLoop file n pos ws = (none, ws', p) →
    ws'.length = ws.length + n ∧
    (∀ i, i < n → ws'.get? (ws.length + i) = ReadUShortAt file (pos + 4 * i)) ∧
    (∀ i, i < ws.length → ws'.get? i = ws.get? i) := by
  intro n
  induction n with
  | zero =>
    intro pos ws ws' p h
    simp only [hmtxReadLoop] at h
    injection h with h1 h23
    injection h23 with h2 h3
    subst h2
    exact ⟨rfl, fun i hi => absurd hi (Nat.not_lt_zero i), fun i _ => rfl⟩
  | succ n ih =>
    intro pos ws ws' p h
    simp only [hmtxReadLoop] at h
    cases hr : ReadUShortAt file pos with
    | none => rw [hr] at h; simp at h
    | some a =>
      rw [hr] at h
      obtain ⟨hlen, hread, hpre⟩ := ih (pos + 2 + 2) (ws ++ [a]) ws' p h
      refine ⟨by simp at hlen; omega, ?_, ?_⟩
      · intro i hi
        cases i with
        | zero =>
          have hk := hpre ws.length (by simp)
          rw [Nat.add_zero, hk, List.get?_concat_length, Nat.mul_zero,
            Nat.add_zero, hr]
        | succ j =>
          have hk := hread j (by omega)
          rw [show ws.length + (j + 1) = (ws ++ [a]).length + j by simp; omega,
            hk]
          congr 1
          omega
      · intro i hi
        rw [hpre i (by simp; omega), List.get?_append hi]

/-- Membership in the guarded insertion: either an old entry, or the new
pair, which was stored only because its glyph index is positive. -/
theorem storeChar_mem {acc : List (Nat × Nat)} {c gid : Nat} {q : Nat × Nat}
    (hq : q ∈ storeChar acc c gid) : q ∈ acc ∨ (q = (c, gid) ∧ 0 < gid) := by
  unfold storeChar at hq
  split at hq
  · rcases List.mem_append.1 hq with h | h
    · exact Or.inl h
    · rename_i hgid
      exact Or.inr ⟨List.mem_singleton.1 h, hgid⟩
  · exact Or.inl hq

/-- Every pair the codepoint loop appends has a key other than the 0xFFFF
sentinel and a nonzero glyph index: the loop breaks at the sentinel before
storing and stores only under `gid > 0`. -/
theorem segLoop_mem (file : List Nat) (d ro : Nat) :
    ∀ (fuel pos c : Nat) (acc : List (Nat × Nat)) (e : Option TTFError)
      (out : List (Nat × Nat)) (p : Nat),
    segLoop file d ro fuel pos c acc = (e, out, p) →
    (∀ q ∈ acc, q.1 ≠ 65535 ∧ 0 < q.2) →
    (∀ q ∈ out, q.1 ≠ 65535 ∧ 0 < q.2) := by
  intro fuel
  induction fuel with
  | zero =>
    intro pos c acc e out p h hacc
    simp only [segLoop, Prod.mk.injEq] at h
    exact h.2.1 ▸ hacc
  | succ fuel ih =>
    intro pos c acc e out p h hacc
    simp only [segLoop] at h
    split at h
    · simp only [Prod.mk.injEq] at h
      exact h.2.1 ▸ hacc
    · rename_i hc
      split at h
      · cases hr : ReadUShortAt file pos with
        | none =>
          rw [hr] at h
          simp only [Prod.mk.injEq] at h
          exact h.2.1 ▸ hacc
        | some g =>
          rw [hr] at h
          refine ih _ _ _ _ _ _ h ?_
          intro q hq
          rcases storeChar_mem hq with hq | ⟨rfl, hgid⟩
          · exact hacc q hq
          · exact ⟨hc, hgid⟩
      · refine ih _ _ _ _ _ _ h ?_
        intro q hq
        rcases storeChar_mem hq with hq | ⟨rfl, hgid⟩
        · exact hacc q hq
        · exact ⟨hc, hgid⟩

/-- The segment loop preserves the key/value soundness of the accumulated
character map. -/
theorem buildCharsLoop_mem (file : List Nat) (sc ec dl ro : List Nat)
    (offset : Nat) :
    ∀ (segs i pos : Nat) (acc : List (Nat × Nat)) (e : Option TTFError)
      (out : List (Nat × Nat)) (p : Nat),
    buildCharsLoop file sc ec dl ro offset segs i pos acc = (e, out, p) →
    (∀ q ∈ acc, q.1 ≠ 65535 ∧ 0 < q.2) →
    (∀ q ∈ out, q.1 ≠ 65535 ∧ 0 < q.2) := by
  intro segs
  induction segs with
  | zero =>
    intro i pos acc e out p h hacc
    simp only [buildCharsLoop, Prod.mk.injEq] at h
    exact h.2.1 ▸ hacc
  | succ segs ih =>
    intro i pos acc e out p h hacc
    simp only [buildCharsLoop] at h
    split at h
    · rename_i e1 acc1 pos1 hseg
      simp only [Prod.mk.injEq] at h
      exact h.2.1 ▸ segLoop_mem file _ _ _ _ _ _ _ _ _ hseg hacc
    · rename_i acc1 pos1 hseg
      exact ih _ _ _ _ _ _ h (segLoop_mem file _ _ _ _ _ _ _ _ _ hseg hacc)

/-- A completed record scan either ran zero iterations (returning its
inputs) or left the symbol flag false: every completed iteration resets it
to false, and the branch that would set it true requires
`encodingID = 1` and `encodingID = 0` at once. -/
theorem cmapScanLoop_none_symbol (file : List Nat) :
    ∀ (n pos : Nat) (b : Bool) (o : Nat) (sym : Bool) (o' p' : Nat),
    cmapScanLoop file n pos b o = (none, sym, o', p') →
    (sym = b ∧ o' = o) ∨ sym = false := by
  intro n
  induction n with
  | zero =>
    intro pos b o sym o' p' h
    simp only [cmapScanLoop, Prod.mk.injEq] at h
    exact Or.inl ⟨h.2.1.symm, h.2.2.1.symm⟩
  | succ n ih =>
    intro pos b o sym o' p' h
    simp only [cmapScanLoop] at h
    cases h1 : ReadUShortAt file pos with
    | none => rw [h1] at h; simp at h
    | some platformID =>
      rw [h1] at h
      cases h2 : ReadUShortAt file (pos + 2) with
      | none => rw [h2] at h; simp at h
      | some encodingID =>
        rw [h2] at h
        cases h3 : ReadULongAt file (pos + 4) with
        | none => rw [h3] at h; simp at h
        | some offset =>
          rw [h3] at h
          rcases ih _ _ _ _ _ _ h with ⟨hs, -⟩ | hs
          · refine Or.inr ?_
            rw [hs]
            split
            · rename_i hcond
              simp [hcond.2]
            · rfl
          · exact Or.inr hs

/-- Inversion of a successful `ParseCmap`: the symbol flag is false (the
scan must have run at least once to produce a nonzero `offset31`, and
every completed scan iteration leaves the flag false), and every entry of
the character map has a key other than 0xFFFF and a nonzero glyph index. -/
theorem ParseCmap_ok_shape (tables : Tables) (file : List Nat)
    (st : TTFState) (pos0 : Nat) (st' : TTFState) (p : Nat)
    (h : ParseCmap tables file st pos0 = .ok st' p) :
    st'.symbol = false ∧ (∀ q ∈ st'.chars, q.1 ≠ 65535 ∧ 0 < q.2) := by
  simp only [ParseCmap] at h
  repeat' split at h
  all_goals try exact PResult.noConfusion h
  rename_i x10 numTables hnT x9 sym o31 sndv hscan hno x8 fmt hfmt hne4 x7
    len hlen x6 scx2 hscx2 x5 ec pec hec x4 sc psc hsc x3 idl pidl hidl x2
    iro piro hiro x1 gia pgia hgia xb accb posb hbuild
  injection h with hst hp
  subst hst
  constructor
  · show sym = false
    rcases cmapScanLoop_none_symbol file numTables _ st.symbol 0 sym o31 sndv
      hscan with ⟨-, ho⟩ | hs
    · exact absurd ho hno
    · exact hs
  · show ∀ q ∈ accb, q.1 ≠ 65535 ∧ 0 < q.2
    exact buildCharsLoop_mem file _ _ _ _ _ _ _ _ _ _ _ _ hbuild
      (by intro q hq; simp at hq)

/-! Concrete inputs used by the witnesses and counterexamples below. -/

/-- A synthetic cmap table placed at file offset 0: one subtable record
(platformID 3, encodingID 1, subtable offset 12) and a format-4 subtable
with one segment `start = 65`, `end = 70`, `idDelta = 0`,
`idRangeOffset = 0` and an empty glyph-id array. -/
def cmapFile : List Nat :=
  [0, 0, 0, 1,
   0, 3, 0, 1, 0, 0, 0, 12,
   0, 4, 0, 24, 0, 0, 0, 2, 0, 0, 0, 0, 0, 0,
   0, 70, 0, 0, 0, 65, 0, 0, 0, 0]

/-- A directory that does list the cmap table. -/
def cmapTables : Tables := [("cmap", ⟨0, 36, 0⟩)]

/-- The parser state `ParseCmap` produces from `cmapFile`. -/
def cmapOut : TTFState :=
  { initState with
    SegCount := 1
    StartCount := [65]
    EndCount := [70]
    IdRangeOffset := [0]
    IdDelta := [0]
    chars := [(65, 65), (66, 66), (67, 67), (68, 68), (69, 69), (70, 70)] }

/-- State entering `ParseHmtx` with `numberOfHMetrics = 0` and
`numGlyphs = 1`: padding required, zero widths collected. -/
def hmtxPanicSt : TTFState := { initState with numGlyphs := 1 }

/-- Directory, file and states for an hmtx run with two explicit metrics
but only one glyph. -/
def hmtxTables5 : Tables := [("hmtx", ⟨0, 8, 0⟩)]

def hmtxFile5 : List Nat := [0, 7, 0, 0, 0, 9, 0, 0]

def hmtxSt5 : TTFState := { initState with numberOfHMetrics := 2, numGlyphs := 1 }

def hmtxOut5 : TTFState := { hmtxSt5 with widths := [7, 9] }

/-- Directory, file and states for an hmtx run with one explicit metric
and three glyphs (padding kicks in). -/
def hmtxTables7 : Tables := [("hmtx", ⟨0, 4, 0⟩)]

def hmtxFile7 : List Nat := [0, 7, 0, 0]

def hmtxSt7 : TTFState := { initState with numberOfHMetrics := 1, numGlyphs := 3 }

def hmtxOut7 : TTFState := { hmtxSt7 with widths := [7, 7, 7] }

/-- A head table at offset 0 whose magic-number bytes decode to 1. -/
def headTables : Tables := [("head", ⟨0, 54, 0⟩)]

def headFile : List Nat := [0, 0, 0, 0, 0, 0, 0, 0, 0, 0, 0, 0, 0, 0, 0, 1]

/-- A state with nonzero `typoDescender`, negative hhea descender and
`usWinDescent = 100`. -/
def descSt : TTFState :=
  { initState with typoDescender := -1, descender := -5, usWinDescent := 100 }

/-! Claim theorems. -/

/-- C1: the claim says a font source whose directory lacks the cmap table
makes the parse fail with the NotFound error for that tag without
interpreting bytes at the cursor as that table.  The source instead
discards the error of `me.Seek (fd, "cmap")` (and likewise for hmtx): with
an empty table directory, `ParseCmap` keeps reading at the current cursor
position and, on this input, parses the bytes lying there as a complete
cmap table and returns success, not `tableNotFound "cmap"`. -/
theorem ParseCmap_missing_table_still_parses :
    ParseCmap [] cmapFile initState 0 = .ok cmapOut 36 := by decide

/-- C2: evaluation of `ParseHmtx` at `numberOfHMetrics = 0`,
`numGlyphs = 1`: padding is required but zero widths were collected, and
the source evaluates `me.widths[me.numberOfHMetrics-1]`, an out-of-range
index (`uint64` wraparound makes it `2^64 - 1`) into an empty slice - a
runtime panic, modelled as `indexOutOfRange`, not one of the parser's
typed errors. -/
theorem ParseHmtx_zero_metrics_panics :
    ParseHmtx [("hmtx", ⟨0, 0, 0⟩)] [] hmtxPanicSt 0 =
      .err .indexOutOfRange hmtxPanicSt := by decide

/-- C3: evaluation of the PostScript-name sanitization.  At the payload
`"A0B"` (bytes 65, 48, 66) the claim says the digit character `'0'` is
kept, but `strings.Replace (s, strconv.Itoa 0, "", -1)` removes every
`"0"` (byte 48), so the stored name is `"AB"`.  At the payload `"A/B C"`
(bytes 65, 47, 66, 32, 67) the claim says slash and space are removed,
but the `PregReplace` call matches only empty strings (see
`PregReplaceForbidden`), so the name is stored unchanged, not `"ABC"`. -/
theorem sanitize_strips_digit_zero :
    sanitizePostScriptName [65, 48, 66] = [65, 66] ∧
    sanitizePostScriptName [65, 48, 66] ≠ [65, 48, 66] ∧
    sanitizePostScriptName [65, 47, 66, 32, 67] = [65, 47, 66, 32, 67] ∧
    sanitizePostScriptName [65, 47, 66, 32, 67] ≠ [65, 66, 67] := by decide

/-- C4 counterexample: with `typoDescender = -1`, hhea
`descender = -5 < 0` and `usWinDescent = 100`, the accessor returns
`-100`, not the claimed `abs (usWinDescent) = 100`, and the result is
negative, not magnitude-normalized. -/
theorem Descender_counterexample :
    Descender descSt = -100 ∧
    Descender descSt ≠ (descSt.usWinDescent : Int) ∧
    Descender descSt < 0 := by decide

/-- C4 amended: when `typoDescender = 0` the accessor returns the hhea
descender; when `typoDescender ≠ 0` it returns a value whose magnitude is
`usWinDescent` but whose sign follows the hhea descender - it is negative
exactly when the hhea descender is negative and `usWinDescent` is nonzero
(so it is not magnitude-normalized). -/
theorem Descender_sign_follows_hhea (st : TTFState) :
    (st.typoDescender = 0 → Descender st = st.descender) ∧
    (st.typoDescender ≠ 0 →
      (Descender st).natAbs = st.usWinDescent ∧
      (Descender st < 0 ↔ st.descender < 0 ∧ 0 < st.usWinDescent)) := by
  unfold Descender
  constructor
  · intro h
    rw [if_pos h]
  · intro h
    rw [if_neg h]
    dsimp only
    split <;> constructor <;> omega

/-- C4 witness: the amended statement applied at `descSt`. -/
theorem Descender_sign_follows_hhea_witness :
    (Descender descSt).natAbs = descSt.usWinDescent ∧
    (Descender descSt < 0 ↔ descSt.descender < 0 ∧ 0 < descSt.usWinDescent) :=
  (Descender_sign_follows_hhea descSt).2 (by decide)

/-- C5 counterexample: with `numberOfHMetrics = 2` and `numGlyphs = 1`
the parse succeeds with a width sequence of length 2, not the claimed
glyph count 1: the source pads but never truncates. -/
theorem ParseHmtx_length_counterexample :
    ParseHmtx hmtxTables5 hmtxFile5 hmtxSt5 0 = .ok hmtxOut5 8 ∧
    hmtxOut5.widths.length ≠ hmtxSt5.numGlyphs := by decide

/-- C9: with `idRangeOffset = 0`, a codepoint `c ≤ 65535` other than the
sentinel and a delta `d ≤ 65535`, the glyph index the segment loop
resolves is `(c + d) mod 65536`, and the single conditional subtraction
`reduceGid` realizes that modulus; a one-codepoint segment stores exactly
`(c, (c + d) mod 65536)` when that value is nonzero. -/
theorem reduceGid_mod (c d : Nat) (hc : c ≤ 65535) (hd : d ≤ 65535)
    (hne : c ≠ 65535) :
    reduceGid (c + d) = (c + d) % 65536 ∧
    ∀ (file : List Nat) (pos : Nat) (acc : List (Nat × Nat)),
      segLoop file d 0 1 pos c acc =
        (none,
         if 0 < (c + d) % 65536 then acc ++ [(c, (c + d) % 65536)] else acc,
         pos) := by
  have h1 : reduceGid (c + d) = (c + d) % 65536 := by
    unfold reduceGid
    split <;> omega
  refine ⟨h1, fun file pos acc => ?_⟩
  simp only [segLoop, storeChar, if_neg hne, h1]
  simp only [Nat.lt_irrefl, if_false]

/-- C9 witness: the resolution at `c = 65500`, `d = 100`, where the sum
overflows 16 bits and one subtraction yields `65600 mod 65536 = 64`. -/
theorem reduceGid_mod_witness :
    reduceGid (65500 + 100) = (65500 + 100) % 65536 ∧
    segLoop [] 100 0 1 0 65500 [] =
      (none,
       if 0 < (65500 + 100) % 65536 then
         ([] : List (Nat × Nat)) ++ [(65500, (65500 + 100) % 65536)]
       else [],
       0) := by
  have h := reduceGid_mod 65500 100 (by decide) (by decide) (by decide)
  exact ⟨h.1, h.2 [] 0 []⟩

/-- C5 amended: a successful hmtx parse starting from an empty width list
produces a width sequence of length `max numberOfHMetrics numGlyphs`: the
source pads up to the glyph count when `numberOfHMetrics < numGlyphs` but
never truncates, so the length equals the glyph count exactly when
`numberOfHMetrics ≤ numGlyphs`. -/
theorem ParseHmtx_length (tables : Tables) (file : List Nat) (st : TTFState)
    (pos0 : Nat) (st' : TTFState) (p : Nat)
    (hw : st.widths = [])
    (h : ParseHmtx tables file st pos0 = .ok st' p) :
    st'.widths.length = max st.numberOfHMetrics st.numGlyphs := by
  simp only [ParseHmtx] at h
  split at h
  · exact PResult.noConfusion h
  · rename_i ws pos1 hloop
    obtain ⟨hlen, -, -⟩ :=
      hmtxReadLoop_ok file st.numberOfHMetrics _ st.widths ws pos1 hloop
    rw [hw] at hlen
    simp only [List.length_nil, Nat.zero_add] at hlen
    split at h
    · rename_i hlt
      split at h
      · exact PResult.noConfusion h
      · rename_i lastWidth hlast
        injection h with hst hp
        subst hst
        simp only at hlt ⊢
        rw [ArrayPadUint_length]
        omega
    · rename_i hge
      injection h with hst hp
      subst hst
      simp only at hge ⊢
      omega

/-- C5 witness: the amended statement applied at `numberOfHMetrics = 2`,
`numGlyphs = 1`, where the resulting length is `max 2 1 = 2`. -/
theorem ParseHmtx_length_witness :
    hmtxOut5.widths.length = max hmtxSt5.numberOfHMetrics hmtxSt5.numGlyphs :=
  ParseHmtx_length hmtxTables5 hmtxFile5 hmtxSt5 0 hmtxOut5 8
    (by decide) (by decide)

/-- C6: after any successful `ParseCmap` the symbol flag is false - the
`encodingID == 0` check is nested under the `encodingID == 1` branch, so
the symbol-detection path is unreachable and every completed scan
iteration resets the flag to false - hence `Flag` returns the
nonsymbolic value `0x20` and never the symbolic bit `0x4`. -/
theorem ParseCmap_always_nonsymbolic (tables : Tables) (file : List Nat)
    (st : TTFState) (pos0 : Nat) (st' : TTFState) (p : Nat)
    (h : ParseCmap tables file st pos0 = .ok st' p) :
    st'.symbol = false ∧ Flag st' = 0x20 := by
  have hsym := (ParseCmap_ok_shape tables file st pos0 st' p h).1
  refine ⟨hsym, ?_⟩
  simp [Flag, hsym, Nonsymbolic]

/-- C6 witness: the concrete cmap run, whose flag bitmask is 0x20. -/
theorem ParseCmap_always_nonsymbolic_witness :
    cmapOut.symbol = false ∧ Flag cmapOut = 0x20 :=
  ParseCmap_always_nonsymbolic cmapTables cmapFile initState 0 cmapOut 36
    (by decide)

/-- C7: for a successful hmtx parse with `1 ≤ numberOfHMetrics <
numGlyphs` starting from an empty width list, entry `i` below
`numberOfHMetrics` is the advance width read from the file at byte offset
`tableOffset + 4 * i` (the widths in file order), and every entry at or
beyond `numberOfHMetrics` equals the last explicitly collected width. -/
theorem ParseHmtx_padding (tables : Tables) (file : List Nat) (st : TTFState)
    (pos0 : Nat) (st' : TTFState) (p : Nat) (t : TableDirectoryEntry)
    (ht : tables.lookup "hmtx" = some t)
    (hw : st.widths = [])
    (h1 : 1 ≤ st.numberOfHMetrics)
    (hlt : st.numberOfHMetrics < st.numGlyphs)
    (hb : st.numberOfHMetrics < U64)
    (h : ParseHmtx tables file st pos0 = .ok st' p) :
    (∀ i, i < st.numberOfHMetrics →
      st'.widths.get? i = ReadUShortAt file (t.offset + 4 * i)) ∧
    (∀ i, st.numberOfHMetrics ≤ i → i < st.numGlyphs →
      st'.widths.get? i = st'.widths.get? (st.numberOfHMetrics - 1)) := by
  simp only [ParseHmtx, ht] at h
  split at h
  · exact PResult.noConfusion h
  · rename_i ws pos1 hloop
    obtain ⟨hlen, hread, -⟩ :=
      hmtxReadLoop_ok file st.numberOfHMetrics t.offset st.widths ws pos1 hloop
    rw [hw] at hlen hread
    simp only [List.length_nil, Nat.zero_add] at hlen hread
    split at h
    · split at h
      · exact PResult.noConfusion h
      · rename_i lastWidth hlast
        rw [u64sub_one st.numberOfHMetrics h1 hb] at hlast
        injection h with hst hp
        subst hst
        simp only
        constructor
        · intro i hi
          have hri := hread i hi
          rw [ArrayPadUint_getQ,
            if_pos (show i < st.numGlyphs by omega),
            if_pos (show i < ws.length by omega)]
          have hg := List.get?_eq_get (show i < ws.length by omega)
          rw [getD_of_getQ hg, ← hri, hg]
        · intro i hni hig
          rw [ArrayPadUint_getQ, ArrayPadUint_getQ,
            if_pos (show i < st.numGlyphs by omega),
            if_neg (show ¬ i < ws.length by omega),
            if_pos (show st.numberOfHMetrics - 1 < st.numGlyphs by omega),
            if_pos (show st.numberOfHMetrics - 1 < ws.length by omega),
            getD_of_getQ hlast]
    · rename_i hge
      exact absurd hlt (by simpa using hge)

/-- C7 witness: one explicit metric, three glyphs; entry 0 is the width
read at offset 0 and entry 2 equals entry `numberOfHMetrics - 1 = 0`. -/
theorem ParseHmtx_padding_witness :
    hmtxOut7.widths.get? 0 = ReadUShortAt hmtxFile7 (0 + 4 * 0) ∧
    hmtxOut7.widths.get? 2 = hmtxOut7.widths.get? (hmtxSt7.numberOfHMetrics - 1) := by
  have h := ParseHmtx_padding hmtxTables7 hmtxFile7 hmtxSt7 0 hmtxOut7 4
    ⟨0, 4, 0⟩ (by decide) (by decide) (by decide) (by decide) (by decide)
    (by decide)
  exact ⟨h.1 0 (by decide), h.2 2 (by decide) (by decide)⟩

/-- C8: after any successful `ParseCmap`, the character map holds no
entry with glyph index 0 and none keyed by the sentinel codepoint 0xFFFF:
the codepoint loop breaks at 0xFFFF before storing, and stores a
codepoint only when its resolved glyph index is nonzero. -/
theorem ParseCmap_chars_sound (tables : Tables) (file : List Nat)
    (st : TTFState) (pos0 : Nat) (st' : TTFState) (p : Nat)
    (h : ParseCmap tables file st pos0 = .ok st' p) :
    ∀ q ∈ st'.chars, q.1 ≠ 0xFFFF ∧ 0 < q.2 :=
  (ParseCmap_ok_shape tables file st pos0 st' p h).2

/-- C8 witness: the concrete cmap run contains the entry `(65, 65)`,
whose key is not the sentinel and whose glyph index is positive. -/
theorem ParseCmap_chars_sound_witness : (65 : Nat) ≠ 0xFFFF ∧ (0 : Nat) < 65 :=
  ParseCmap_chars_sound cmapTables cmapFile initState 0 cmapOut 36
    (by decide) (65, 65) (by decide)

/-- C10: whenever the head table is present and its four magic-number
bytes decode to a value other than `0x5F0F3CF5`, `ParseHead` fails with
the incorrect-magic-number error and returns the state exactly as it
received it: no head-derived field (`unitsPerEm`, `xMin`, `yMin`, `xMax`,
`yMax`, `indexToLocFormat`) is modified, since every field assignment in
the source comes after the magic-number check. -/
theorem ParseHead_badMagic (tables : Tables) (file : List Nat) (st : TTFState)
    (pos0 : Nat) (t : TableDirectoryEntry) (m : Nat)
    (ht : tables.lookup "head" = some t)
    (hm : ReadULongAt file (t.offset + 12) = some m)
    (hmagic : m ≠ 0x5F0F3CF5) :
    ParseHead tables file st pos0 = .err .incorrectMagicNumber st := by
  simp only [ParseHead, ht, hm]
  rw [if_pos hmagic]

/-- C10 witness: a head table at offset 0 whose magic number decodes to 1. -/
theorem ParseHead_badMagic_witness :
    ParseHead headTables headFile initState 0 =
      .err .incorrectMagicNumber initState :=
  ParseHead_badMagic headTables headFile initState 0 ⟨0, 54, 0⟩ 1
    (by decide) (by decide) (by decide)

end TTF
